import Mathlib

/-! A shallow embedding of the compiler backend in src/src/cranelift.rs of the ctrl
repository: type lowering, the per-function symbol table, expression lowering,
function lowering and module emission, together with theorems checking the
specification's claims against them.

The cranelift crates (FunctionBuilder, ObjectModule, ...) are the external backend
capability; they are embedded as explicit state the source observes. The crate::parse
module is code of the repository that is not under src/; the parts of it the claims
need (the extra operator and expression variants behind wildcard match arms, and
Expression::type_of) are modelled from the spec and marked as such. -/

namespace Ctrl

/-- Machine value types of the backend, as used by the source (cranelift ir types). -/
inductive CLType where
  | I8
  | I32
  | I64
  | F64
deriving DecidableEq

/-- Builtin source types. The variant list is pinned by the exhaustive match in
type_to_cranelift. -/
inductive BuiltinType where
  | Int
  | Float
  | String
  | Array
  | Char
  | Bool
deriving DecidableEq

/-- Source types T. The variant list is pinned by the exhaustive match in
type_to_cranelift; Hole is the unresolved bottom type left by the type checker. -/
inductive T where
  | Hole
  | Unit
  | BuiltIn (b : BuiltinType)
  | Record (fields : List (String × T))
  | Function (param_tys : List T) (return_ty : T)

/-- Abort conditions of the lowering. Every constructor corresponds to a panic (a
fatal, process-aborting condition) in the source. The backend's recoverable failures
(declare_function, define_function, emit, file write) belong to the external cranelift
crates and are modelled as succeeding, so they never appear here. -/
inductive Err where
  | hitBottomType
  | unwrapNone
  | undefinedIdentifier (name : String)
  | unimplementedBop
  | unimplementedExpression
  | paramTyIndexOOB (idx : Nat)
  | blockParamIndexOOB (idx : Nat)
  | topLevelNotFunction
deriving DecidableEq

/-- Embedding of type_to_cranelift. The source panics on Hole; panics are the error
channel of Except Err. An ok none models the unit type carrying no machine value. -/
def type_to_cranelift : T → Except Err (Option CLType)
  | .Hole => .error .hitBottomType
  | .Unit => .ok none
  | .BuiltIn b =>
    match b with
    | .Int => .ok (some .I32)
    | .Float => .ok (some .F64)
    | .String => .ok (some .I64)
    | .Array => .ok (some .I64)
    | .Char => .ok (some .I8)
    | .Bool => .ok (some .I8)
  | .Record _ => .ok (some .I64)
  | .Function _ _ => .ok (some .I64)

/-- Instructions emitted through the function builder, with operand values as ids. -/
inductive Instr where
  | iconst (ty : CLType) (imm : Int)
  | iadd (a b : Nat)
  | isub (a b : Nat)
  | imul (a b : Nat)
  | sdiv (a b : Nat)
  | ret (args : List Nat)
  | useVar (v : Nat)
deriving DecidableEq

/-- State of the cranelift FunctionBuilder as far as the source observes it: the
per-block parameter values, the current and sealed blocks, the emitted instructions,
the next fresh value id, and the declare_var / def_var events. -/
structure FnBuilder where
  blockParams : List (List Nat)
  currentBlock : Option Nat
  sealedBlocks : List Nat
  instrs : List Instr
  nextVal : Nat
  declaredVars : List (Nat × CLType)
  varDefs : List (Nat × Nat)
deriving DecidableEq

/-- A fresh FunctionBuilder, as handed to each function's lowering. -/
def FnBuilder.new : FnBuilder := ⟨[], none, [], [], 0, [], []⟩

/-- builder.create_block(): blocks are numbered in creation order and start with no
block parameters; the source never appends any. -/
def FnBuilder.create_block (b : FnBuilder) : Nat × FnBuilder :=
  (b.blockParams.length, { b with blockParams := b.blockParams ++ [[]] })

/-- builder.switch_to_block(blk). -/
def FnBuilder.switch_to_block (b : FnBuilder) (blk : Nat) : FnBuilder :=
  { b with currentBlock := some blk }

/-- builder.seal_block(blk). -/
def FnBuilder.seal_block (b : FnBuilder) (blk : Nat) : FnBuilder :=
  { b with sealedBlocks := b.sealedBlocks ++ [blk] }

/-- builder.block_params(blk): the parameter values of a block. -/
def FnBuilder.block_params (b : FnBuilder) (blk : Nat) : List Nat :=
  b.blockParams.getD blk []

/-- Emit a value-producing instruction; the fresh value id is returned with the new
builder state. -/
def FnBuilder.emit (b : FnBuilder) (i : Instr) : Nat × FnBuilder :=
  (b.nextVal, { b with instrs := b.instrs ++ [i], nextVal := b.nextVal + 1 })

/-- Emit an instruction that produces no value (the return terminator). -/
def FnBuilder.emit_inst (b : FnBuilder) (i : Instr) : FnBuilder :=
  { b with instrs := b.instrs ++ [i] }

/-- builder.declare_var(var, ty): registers the slot's machine type. -/
def FnBuilder.declare_var (b : FnBuilder) (v : Nat) (ty : CLType) : FnBuilder :=
  { b with declaredVars := b.declaredVars ++ [(v, ty)] }

/-- builder.def_var(var, val): binds a value to a slot. -/
def FnBuilder.def_var (b : FnBuilder) (v : Nat) (val : Nat) : FnBuilder :=
  { b with varDefs := b.varDefs ++ [(v, val)] }

/-- builder.use_var(var): materializes the variable's current value as a value id. -/
def FnBuilder.use_var (b : FnBuilder) (v : Nat) : Nat × FnBuilder :=
  b.emit (.useVar v)

/-- Embedding of Ctx, the per-function symbol table: the HashMap is modelled by its
lookup function (insert overwrites pointwise exactly as HashMap::insert does), plus
the monotone slot counter. The source field named variables is called vars here
because variables is a reserved word in Lean. -/
structure Ctx where
  vars : String → Option Nat
  variable_counter : Nat

/-- Ctx::new(). -/
def Ctx.new : Ctx := ⟨fun _ => none, 0⟩

/-- Ctx::declare_variable: allocate the slot id equal to the current counter, bump the
counter, register the slot's machine type with the builder, bind name to the slot
(overwriting any prior binding) and return the slot. -/
def Ctx.declare_variable (c : Ctx) (name : String) (b : FnBuilder) (ty : CLType) :
    Nat × FnBuilder × Ctx :=
  (c.variable_counter,
   b.declare_var c.variable_counter ty,
   { vars := fun n => if n = name then some c.variable_counter else c.vars n,
     variable_counter := c.variable_counter + 1 })

/-- Ctx::get_variable: the currently bound slot, if any. -/
def Ctx.get_variable (c : Ctx) (name : String) : Option Nat :=
  c.vars name

/-- Source literals; the variant list is pinned by the exhaustive match in
translate_literal. -/
inductive Literal where
  | Bool (b : Bool)
  | Int (i : Int)
deriving DecidableEq

/-- Binary operators. The four operators matched by the source keep their source
names. Modelled from the spec: the parse module defining Bop is not under src/, and
the source's wildcard arm implies further operators exist; OtherOp stands for any
operator outside the four, which the spec calls unimplemented. -/
inductive Bop where
  | Plus
  | Min
  | Mul
  | Div
  | OtherOp
deriving DecidableEq

mutual
/-- AST expressions, with the constructors the source matches on. Modelled from the
spec: the parse module is not under src/; the spec's reserved, not-yet-supported
variants behind the source's wildcard arm are collapsed into Reserved. -/
inductive Expression where
  | Literal (l : Literal)
  | Identifier (name : String)
  | Assignment (ident : String) (binding : Expression)
  | BinaryOp (operation : Bop) (lhs : Expression) (rhs : Expression)
  | Return (e : Expression)
  | Block (b : BlockExpr)
  | Function (f : Func)
  | Reserved

/-- The parse module's Block: an ordered list of instructions. -/
inductive BlockExpr where
  | mk (instructions : ExpressionList)

/-- Cons-list of expressions (a plain List cannot occur inside the mutual block). -/
inductive ExpressionList where
  | nil
  | cons (head : Expression) (tail : ExpressionList)

/-- The parse module's Function descriptor: name, parameters with their source types,
return type, body. -/
inductive Func where
  | mk (name : String) (params : List (String × T)) (return_ty : T) (body : BlockExpr)
end

/-- The name of a function descriptor. -/
def Func.name : Func → String
  | .mk n _ _ _ => n

/-- The declared parameters of a function descriptor. -/
def Func.params : Func → List (String × T)
  | .mk _ p _ _ => p

/-- The declared return type of a function descriptor. -/
def Func.return_ty : Func → T
  | .mk _ _ r _ => r

/-- The body of a function descriptor. -/
def Func.body : Func → BlockExpr
  | .mk _ _ _ b => b

/-- The instruction list of a block. -/
def BlockExpr.instructions : BlockExpr → ExpressionList
  | .mk l => l

/-- Modelled from the spec: Expression::type_of lives in the parse module, which is
not under src/. Following the spec, an assignment is typed by its right-hand
expression's inferred type; an identifier by the environment, falling back to the
unresolved Hole when absent; literals by their builtin types; a binary operation by
its left operand; a block is unit; a function has the FunctionType of its parameter
and return types; reserved variants are unresolved. -/
def type_of (env : String → Option T) : Expression → T
  | .Literal (.Bool _) => T.BuiltIn .Bool
  | .Literal (.Int _) => T.BuiltIn .Int
  | .Identifier name => (env name).getD T.Hole
  | .Assignment _ binding => type_of env binding
  | .BinaryOp _ lhs _ => type_of env lhs
  | .Return e => type_of env e
  | .Block _ => T.Unit
  | .Function (.mk _ params rty _) => T.Function (params.map Prod.snd) rty
  | .Reserved => T.Hole

/-- Embedding of translate_literal: bools become 1-byte constants 0 or 1, ints 32-bit
constants. -/
def translate_literal (l : Literal) (b : FnBuilder) : Nat × FnBuilder :=
  match l with
  | .Bool v => b.emit (.iconst .I8 (if v then 1 else 0))
  | .Int i => b.emit (.iconst .I32 i)

mutual
/-- Embedding of translate_expression. The bodies of the source's helper functions
for assignments, binary operations and blocks are inlined into the matching arms here
(so that the recursion stays structural); each arm follows the corresponding source
function line by line. The Assignment arm computes ty by calling type_of on the whole
assignment expression with an empty environment, exactly as the source does with
HashMap::new(), then performs the source's assignment-translation: lower the binding,
unwrap the lowered type (a panic when it is none), declare the slot, bind the value,
and finally produce the placeholder I64 constant 0. -/
def translate_expression : Expression → FnBuilder → Ctx → Except Err (Nat × FnBuilder × Ctx)
  | .Literal l, b, c =>
    match translate_literal l b with
    | (v, b) => .ok (v, b, c)
  | .Assignment ident binding, b, c =>
    match translate_expression binding b c with
    | .error e => .error e
    | .ok (val, b, c) =>
      match type_to_cranelift (type_of (fun _ => none) (.Assignment ident binding)) with
      | .error e => .error e
      | .ok none => .error .unwrapNone
      | .ok (some clty) =>
        match c.declare_variable ident b clty with
        | (var, b, c) =>
          match (b.def_var var val).emit (.iconst .I64 0) with
          | (v, b) => .ok (v, b, c)
  | .Identifier name, b, c =>
    match c.get_variable name with
    | some var =>
      match b.use_var var with
      | (v, b) => .ok (v, b, c)
    | none => .error (.undefinedIdentifier name)
  | .BinaryOp op lhs rhs, b, c =>
    match translate_expression lhs b c with
    | .error e => .error e
    | .ok (lv, b, c) =>
      match translate_expression rhs b c with
      | .error e => .error e
      | .ok (rv, b, c) =>
        match op with
        | .Plus => match b.emit (.iadd lv rv) with | (v, b) => .ok (v, b, c)
        | .Min => match b.emit (.isub lv rv) with | (v, b) => .ok (v, b, c)
        | .Mul => match b.emit (.imul lv rv) with | (v, b) => .ok (v, b, c)
        | .Div => match b.emit (.sdiv lv rv) with | (v, b) => .ok (v, b, c)
        | .OtherOp => .error .unimplementedBop
  | .Return e, b, c =>
    match translate_expression e b c with
    | .error err => .error err
    | .ok (rv, b, c) => .ok (rv, b.emit_inst (.ret [rv]), c)
  | .Block (.mk instrs), b, c =>
    match b.create_block with
    | (_, b) =>
      match translate_expr_list instrs b c with
      | .error e => .error e
      | .ok (b, c) =>
        match b.emit (.iconst .I64 0) with
        | (v, b) => .ok (v, b, c)
  | .Function _, _, _ => .error .unimplementedExpression
  | .Reserved, _, _ => .error .unimplementedExpression

/-- The in-order lowering of a statement list, as done by the loop in the source's
block-translation function and by the body loop of translate_function; each
statement's value is discarded. -/
def translate_expr_list : ExpressionList → FnBuilder → Ctx → Except Err (FnBuilder × Ctx)
  | .nil, b, c => .ok (b, c)
  | .cons e rest, b, c =>
    match translate_expression e b c with
    | .error err => .error err
    | .ok (_, b, c) => translate_expr_list rest b c
end

/-- The function signature the source assembles: parameter machine types in order,
then at most one return machine type. -/
structure Signature where
  params : List CLType
  returns : List CLType
deriving DecidableEq

/-- Function linkage; the source only uses Export. -/
inductive Linkage where
  | Export
deriving DecidableEq

/-- The object module as the source observes it: functions declared (in order, with
name, linkage and signature, the declaration index being the function id) and
functions defined (function id with the finalized builder state). The backend makes
declaration and definition recoverable Results; that backend is the external
cranelift capability and is modelled as accepting them. -/
structure ObjectModule where
  declaredFns : List (String × Linkage × Signature)
  definedFns : List (Nat × FnBuilder)
deriving DecidableEq

/-- A fresh, empty compilation unit. -/
def ObjectModule.new : ObjectModule := ⟨[], []⟩

/-- module.declare_function(name, linkage, sig). -/
def ObjectModule.declare_function (m : ObjectModule) (name : String) (lk : Linkage)
    (sig : Signature) : Nat × ObjectModule :=
  (m.declaredFns.length, { m with declaredFns := m.declaredFns ++ [(name, lk, sig)] })

/-- module.define_function(func_id, ctx) after builder.finalize(). -/
def ObjectModule.define_function (m : ObjectModule) (id : Nat) (b : FnBuilder) :
    ObjectModule :=
  { m with definedFns := m.definedFns ++ [(id, b)] }

/-- The filter_map over declared parameter types at the top of translate_function:
each source type is lowered (panicking on Hole, in declaration order) and parameters
whose type lowers to no machine type are dropped. -/
def params_to_cranelift : List (String × T) → Except Err (List CLType)
  | [] => .ok []
  | (_, ty) :: rest =>
    match type_to_cranelift ty with
    | .error e => .error e
    | .ok mt =>
      match params_to_cranelift rest with
      | .error e => .error e
      | .ok tys =>
        match mt with
        | some t => .ok (t :: tys)
        | none => .ok tys

/-- The parameter-binding loop of translate_function: it iterates ALL declared
parameters with their positional index, reads the FILTERED machine-type list and the
entry block's parameter-value list at that index (an out-of-bounds read is a panic),
declares a fresh slot for the name and binds the positional entry-block parameter
value to it. -/
def bind_params (param_tys : List CLType) (blk : Nat) :
    List (String × T) → Nat → FnBuilder → Ctx → Except Err (FnBuilder × Ctx)
  | [], _, b, c => .ok (b, c)
  | (name, _) :: rest, idx, b, c =>
    match param_tys[idx]? with
    | none => .error (.paramTyIndexOOB idx)
    | some ty =>
      match c.declare_variable name b ty with
      | (param_var, b, c) =>
        match (b.block_params blk)[idx]? with
        | none => .error (.blockParamIndexOOB idx)
        | some param_val =>
          bind_params param_tys blk rest (idx + 1) (b.def_var param_var param_val) c

/-- Embedding of translate_function: build the filtered parameter signature and the
optional return slot, declare the function with Export linkage, create, enter and
seal the single entry block of a fresh builder, bind the parameters positionally with
a fresh symbol table, lower the body statements in order, and define the function in
the module. -/
def translate_function (func : Func) (module : ObjectModule) : Except Err ObjectModule :=
  match params_to_cranelift func.params with
  | .error e => .error e
  | .ok param_tys =>
    match type_to_cranelift func.return_ty with
    | .error e => .error e
    | .ok ret_mt =>
      let func_sig : Signature :=
        { params := param_tys,
          returns := match ret_mt with | some t => [t] | none => [] }
      match module.declare_function func.name .Export func_sig with
      | (func_id, module) =>
        match FnBuilder.new.create_block with
        | (block, b) =>
          match bind_params param_tys block func.params 0
              ((b.switch_to_block block).seal_block block) Ctx.new with
          | .error e => .error e
          | .ok (b, c) =>
            match translate_expr_list func.body.instructions b c with
            | .error e => .error e
            | .ok (b, _) => .ok (module.define_function func_id b)

/-- The top-level item loop of translate: every item must be a function declaration;
anything else is the source's top-level panic. -/
def translate_items (module : ObjectModule) : List Expression → Except Err ObjectModule
  | [] => .ok module
  | .Function f :: rest =>
    match translate_function f module with
    | .error e => .error e
    | .ok module => translate_items module rest
  | _ :: _ => .error .topLevelNotFunction

/-- The emitted object file: its path and the finished compilation unit it
serializes. -/
structure ObjectFile where
  path : String
  unit : ObjectModule
deriving DecidableEq

/-- Embedding of translate: the ISA and object-builder construction are host
capabilities modelled as succeeding; the items are lowered in order into one shared
module, which on success is finished, emitted and written to module_name.o. -/
def translate (ast : List Expression) (module_name : String) : Except Err ObjectFile :=
  match translate_items ObjectModule.new ast with
  | .error e => .error e
  | .ok m => .ok { path := module_name ++ ".o", unit := m }

/-- Whether a top-level item is a function declaration. -/
def Expression.is_function : Expression → Bool
  | .Function _ => true
  | _ => false

/-- Apply a sequence of declare_variable calls, in order, to a builder and symbol
table; used to quantify over every symbol-table state reachable in one function. -/
def applyDecls : List (String × CLType) → FnBuilder × Ctx → FnBuilder × Ctx
  | [], p => p
  | (name, ty) :: rest, (b, c) =>
    match c.declare_variable name b ty with
    | (_, b, c) => applyDecls rest (b, c)

/-- The symbol-table invariant: every bound slot is below the counter. -/
def Ctx.wf (c : Ctx) : Prop :=
  ∀ m v, c.vars m = some v → v < c.variable_counter

theorem Ctx.new_wf : Ctx.new.wf := by
  intro m v h
  simp [Ctx.new] at h

theorem Ctx.declare_wf (c : Ctx) (name : String) (b : FnBuilder) (ty : CLType)
    (h : c.wf) : (c.declare_variable name b ty).2.2.wf := by
  intro m v hv
  simp only [Ctx.declare_variable] at hv ⊢
  by_cases hm : m = name
  · simp [hm] at hv
    omega
  · simp [hm] at hv
    have := h m v hv
    omega

theorem applyDecls_wf (ds : List (String × CLType)) (b : FnBuilder) (c : Ctx)
    (h : c.wf) : (applyDecls ds (b, c)).2.wf := by
  induction ds generalizing b c with
  | nil => exact h
  | cons d rest ih =>
    obtain ⟨name, ty⟩ := d
    simpa [applyDecls] using ih _ _ (Ctx.declare_wf c name b ty h)

theorem applyDecls_counter (ds : List (String × CLType)) (b : FnBuilder) (c : Ctx) :
    (applyDecls ds (b, c)).2.variable_counter = c.variable_counter + ds.length := by
  induction ds generalizing b c with
  | nil => simp [applyDecls]
  | cons d rest ih =>
    obtain ⟨name, ty⟩ := d
    simp [applyDecls, ih, Ctx.declare_variable]
    omega

theorem applyDecls_undeclared (ds : List (String × CLType)) (b : FnBuilder) (c : Ctx)
    (m : String) (h : ∀ d ∈ ds, d.1 ≠ m) :
    (applyDecls ds (b, c)).2.vars m = c.vars m := by
  induction ds generalizing b c with
  | nil => simp [applyDecls]
  | cons d rest ih =>
    obtain ⟨name, ty⟩ := d
    have hname : name ≠ m := h (name, ty) (List.mem_cons_self _ _)
    have hrest : ∀ d ∈ rest, d.1 ≠ m := fun d hd => h d (List.mem_cons_of_mem _ hd)
    simp only [applyDecls]
    rw [ih _ _ hrest]
    have hm : m ≠ name := fun h2 => hname h2.symm
    simp [Ctx.declare_variable, hm]

theorem translate_items_append (pre post : List Expression) (m : ObjectModule) :
    translate_items m (pre ++ post) =
      match translate_items m pre with
      | .error e => .error e
      | .ok m2 => translate_items m2 post := by
  induction pre generalizing m with
  | nil => simp [translate_items]
  | cons e rest ih =>
    cases e with
    | Function f =>
      simp only [List.cons_append, translate_items]
      cases translate_function f m with
      | error err => rfl
      | ok m2 => exact ih m2
    | Literal l => rfl
    | Identifier n => rfl
    | Assignment i bnd => rfl
    | BinaryOp o l r => rfl
    | Return e2 => rfl
    | Block bb => rfl
    | Reserved => rfl

theorem translate_items_cons_nonfunction (e : Expression) (rest : List Expression)
    (m : ObjectModule) (h : e.is_function = false) :
    translate_items m (e :: rest) = .error .topLevelNotFunction := by
  cases e <;> simp_all [Expression.is_function, translate_items]

theorem bind_params_no_blockparams (tys : List CLType) (blk : Nat) (name : String)
    (sty : T) (ps : List (String × T)) (idx : Nat) (b : FnBuilder) (c : Ctx)
    (hb : b.block_params blk = []) :
    ∃ e, bind_params tys blk ((name, sty) :: ps) idx b c = .error e := by
  cases htys : tys[idx]? with
  | none => exact ⟨.paramTyIndexOOB idx, by simp [bind_params, htys]⟩
  | some ty =>
    refine ⟨.blockParamIndexOOB idx, ?_⟩
    have hb2 : ((c.declare_variable name b ty).2.1).block_params blk = [] := hb
    simp [bind_params, htys, hb2]

/-- C2: Type Lowering is a total function on every source type other than the
unresolved Hole (purity and determinism are definitional for a Lean function), and
returns no machine type for Unit, the 8-bit integer type for Bool and Char, the
32-bit integer type for Int, the 64-bit float type for Float, and the pointer-width
64-bit integer type for String, Array, Record and function types. -/
theorem type_lowering_spec :
    (∀ t : T, t ≠ T.Hole → ∃ r, type_to_cranelift t = .ok r) ∧
    type_to_cranelift T.Unit = .ok none ∧
    type_to_cranelift (T.BuiltIn .Bool) = .ok (some .I8) ∧
    type_to_cranelift (T.BuiltIn .Char) = .ok (some .I8) ∧
    type_to_cranelift (T.BuiltIn .Int) = .ok (some .I32) ∧
    type_to_cranelift (T.BuiltIn .Float) = .ok (some .F64) ∧
    type_to_cranelift (T.BuiltIn .String) = .ok (some .I64) ∧
    type_to_cranelift (T.BuiltIn .Array) = .ok (some .I64) ∧
    (∀ fields, type_to_cranelift (T.Record fields) = .ok (some .I64)) ∧
    (∀ ps rt, type_to_cranelift (T.Function ps rt) = .ok (some .I64)) := by
  refine ⟨?_, rfl, rfl, rfl, rfl, rfl, rfl, rfl, fun _ => rfl, fun _ _ => rfl⟩
  intro t ht
  cases t with
  | Hole => exact absurd rfl ht
  | Unit => exact ⟨none, rfl⟩
  | BuiltIn bt => cases bt <;> exact ⟨_, rfl⟩
  | Record fields => exact ⟨_, rfl⟩
  | Function ps rt => exact ⟨_, rfl⟩

/-- Witness for C2 at the concrete type Unit. -/
theorem type_lowering_spec_witness :
    T.Unit ≠ T.Hole ∧ ∃ r, type_to_cranelift T.Unit = .ok r :=
  ⟨fun h => T.noConfusion h, type_lowering_spec.1 T.Unit (fun h => T.noConfusion h)⟩

/-- C3: in every symbol-table state reachable by a sequence of declares from a fresh
table, declare returns the fresh slot equal to the number of declares so far, which
is strictly larger than every slot currently bound (and, taking prefixes, than every
slot ever allocated); it rebinds the declared name to the new slot, overwriting any
prior binding, leaves every other name's binding unchanged, never removes a binding,
and lookup of a never-declared name returns none. -/
theorem symbol_table_spec (ds : List (String × CLType)) (name : String) (ty : CLType)
    (b : FnBuilder) (c : Ctx)
    (h : applyDecls ds (FnBuilder.new, Ctx.new) = (b, c)) :
    c.variable_counter = ds.length ∧
    (c.declare_variable name b ty).1 = ds.length ∧
    (∀ m v, c.get_variable m = some v → v < (c.declare_variable name b ty).1) ∧
    ((c.declare_variable name b ty).2.2).get_variable name = some ds.length ∧
    (∀ m, m ≠ name →
      ((c.declare_variable name b ty).2.2).get_variable m = c.get_variable m) ∧
    (∀ m v, c.get_variable m = some v →
      ∃ w, ((c.declare_variable name b ty).2.2).get_variable m = some w) ∧
    (∀ m, (∀ d ∈ ds, d.1 ≠ m) → c.get_variable m = none) := by
  have hb : (applyDecls ds (FnBuilder.new, Ctx.new)).2 = c := by rw [h]
  subst hb
  have hcounter : (applyDecls ds (FnBuilder.new, Ctx.new)).2.variable_counter =
      ds.length := by
    rw [applyDecls_counter]
    simp [Ctx.new]
  have hwf := applyDecls_wf ds FnBuilder.new Ctx.new Ctx.new_wf
  refine ⟨hcounter, ?_, ?_, ?_, ?_, ?_, ?_⟩
  · simpa [Ctx.declare_variable] using hcounter
  · intro m v hv
    have := hwf m v hv
    simp only [Ctx.declare_variable]
    omega
  · simp [Ctx.declare_variable, Ctx.get_variable, hcounter]
  · intro m hm
    simp [Ctx.declare_variable, Ctx.get_variable, hm]
  · intro m v hv
    by_cases hm : m = name
    · exact ⟨(applyDecls ds (FnBuilder.new, Ctx.new)).2.variable_counter,
        by simp [Ctx.declare_variable, Ctx.get_variable, hm]⟩
    · exact ⟨v, by simpa [Ctx.declare_variable, Ctx.get_variable, hm] using hv⟩
  · intro m hm
    have h2 := applyDecls_undeclared ds FnBuilder.new Ctx.new m hm
    simpa [Ctx.get_variable, Ctx.new] using h2

/-- Witness for C3: after zero declares, declaring x binds it to slot 0. -/
theorem symbol_table_spec_witness :
    ((Ctx.new.declare_variable "x" FnBuilder.new CLType.I32).2.2).get_variable "x" =
      some 0 := by
  have h := symbol_table_spec [] "x" CLType.I32 FnBuilder.new Ctx.new rfl
  simpa using h.2.2.2.1

/-- C4: lowering an assignment lowers the right-hand expression first, recomputes the
slot's machine type from the assignment's inferred type under the EMPTY environment
(type_of with the everywhere-none map, not the enclosing bindings), declares a fresh
slot for the left-hand name (the table's next counter, with the counter bumped and
the name rebound), binds the produced value to that slot with def_var, and yields a
fresh I64 constant 0 placeholder as the assignment's own result. -/
theorem assignment_lowering (ident : String) (binding : Expression) (b : FnBuilder)
    (c : Ctx) (val : Nat) (b1 : FnBuilder) (c1 : Ctx) (clty : CLType)
    (hrhs : translate_expression binding b c = .ok (val, b1, c1))
    (hty : type_to_cranelift (type_of (fun _ => none) (.Assignment ident binding)) =
      .ok (some clty)) :
    translate_expression (.Assignment ident binding) b c =
      .ok ((((b1.declare_var c1.variable_counter clty).def_var c1.variable_counter
            val).emit (Instr.iconst .I64 0)).1,
          (((b1.declare_var c1.variable_counter clty).def_var c1.variable_counter
            val).emit (Instr.iconst .I64 0)).2,
          (c1.declare_variable ident b1 clty).2.2) ∧
    (c1.declare_variable ident b1 clty).1 = c1.variable_counter ∧
    ((c1.declare_variable ident b1 clty).2.2).get_variable ident =
      some c1.variable_counter ∧
    ((c1.declare_variable ident b1 clty).2.2).variable_counter =
      c1.variable_counter + 1 ∧
    ((b1.declare_var c1.variable_counter clty).def_var c1.variable_counter
      val).varDefs = b1.varDefs ++ [(c1.variable_counter, val)] := by
  refine ⟨?_, rfl, by simp [Ctx.declare_variable, Ctx.get_variable], rfl,
    by simp [FnBuilder.declare_var, FnBuilder.def_var]⟩
  simp only [translate_expression, hrhs, hty]
  rfl

/-- Witness for C4 at the assignment x = 1. -/
theorem assignment_lowering_witness :
    ∃ r, translate_expression (.Assignment "x" (.Literal (.Int 1)))
      FnBuilder.new Ctx.new = .ok r := by
  have h := assignment_lowering "x" (.Literal (.Int 1)) FnBuilder.new Ctx.new 0
    (FnBuilder.new.emit (Instr.iconst .I32 1)).2 Ctx.new CLType.I32 rfl rfl
  exact ⟨_, h.1⟩

/-- C5: a binary operation lowers its left operand, then its right operand in the
resulting state, then emits exactly one add, subtract, multiply, or signed-divide
instruction for Plus, Min, Mul and Div respectively, and fails fatally as
unimplemented for any other operator. -/
theorem binop_lowering (op : Bop) (lhs rhs : Expression) (b : FnBuilder) (c : Ctx)
    (lv : Nat) (b1 : FnBuilder) (c1 : Ctx) (rv : Nat) (b2 : FnBuilder) (c2 : Ctx)
    (hl : translate_expression lhs b c = .ok (lv, b1, c1))
    (hr : translate_expression rhs b1 c1 = .ok (rv, b2, c2)) :
    translate_expression (.BinaryOp op lhs rhs) b c =
      match op with
      | .Plus => .ok ((b2.emit (.iadd lv rv)).1, (b2.emit (.iadd lv rv)).2, c2)
      | .Min => .ok ((b2.emit (.isub lv rv)).1, (b2.emit (.isub lv rv)).2, c2)
      | .Mul => .ok ((b2.emit (.imul lv rv)).1, (b2.emit (.imul lv rv)).2, c2)
      | .Div => .ok ((b2.emit (.sdiv lv rv)).1, (b2.emit (.sdiv lv rv)).2, c2)
      | .OtherOp => .error .unimplementedBop := by
  simp only [translate_expression, hl, hr]

/-- Witness for C5: 1 + 2 lowers to an iadd of the two constants, and the operator
outside the four fails as unimplemented. -/
theorem binop_lowering_witness :
    (∃ r, translate_expression
      (.BinaryOp .Plus (.Literal (.Int 1)) (.Literal (.Int 2)))
      FnBuilder.new Ctx.new = .ok r) ∧
    translate_expression (.BinaryOp .OtherOp (.Literal (.Int 1)) (.Literal (.Int 2)))
      FnBuilder.new Ctx.new = .error .unimplementedBop := by
  constructor
  · have h := binop_lowering .Plus (.Literal (.Int 1)) (.Literal (.Int 2))
      FnBuilder.new Ctx.new 0 (FnBuilder.new.emit (Instr.iconst .I32 1)).2 Ctx.new
      1 ((FnBuilder.new.emit (Instr.iconst .I32 1)).2.emit (Instr.iconst .I32 2)).2
      Ctx.new rfl rfl
    exact ⟨_, h⟩
  · have h := binop_lowering .OtherOp (.Literal (.Int 1)) (.Literal (.Int 2))
      FnBuilder.new Ctx.new 0 (FnBuilder.new.emit (Instr.iconst .I32 1)).2 Ctx.new
      1 ((FnBuilder.new.emit (Instr.iconst .I32 1)).2.emit (Instr.iconst .I32 2)).2
      Ctx.new rfl rfl
    simpa using h

/-- C6: lowering the unresolved Hole type is the fatal hit-bottom-type panic (an
error of the panic channel, never an ok result), and lowering an identifier whose
name has no binding in the symbol table is the fatal undefined-identifier panic
rather than a value. -/
theorem fatal_hole_and_unbound_identifier :
    type_to_cranelift T.Hole = .error .hitBottomType ∧
    (∀ (name : String) (b : FnBuilder) (c : Ctx), c.get_variable name = none →
      translate_expression (.Identifier name) b c =
        .error (.undefinedIdentifier name)) := by
  refine ⟨rfl, fun name b c h => ?_⟩
  simp only [translate_expression, h]

/-- Witness for C6 at the unbound identifier y in a fresh table. -/
theorem fatal_hole_and_unbound_identifier_witness :
    Ctx.new.get_variable "y" = none ∧
    translate_expression (.Identifier "y") FnBuilder.new Ctx.new =
      .error (.undefinedIdentifier "y") :=
  ⟨rfl, fatal_hole_and_unbound_identifier.2 "y" FnBuilder.new Ctx.new rfl⟩

/-- C7: module emission iterates top-level items in order, and as soon as an item
that is not a function declaration is reached (everything before it having lowered
into the module), the whole translation aborts with the fatal top-level error, so no
object file is produced. -/
theorem top_level_must_be_function (ast : List Expression) (module_name : String)
    (pre rest : List Expression) (e : Expression) (m : ObjectModule)
    (hsplit : ast = pre ++ e :: rest)
    (hpre : translate_items ObjectModule.new pre = .ok m)
    (hnf : e.is_function = false) :
    translate ast module_name = .error .topLevelNotFunction := by
  subst hsplit
  simp only [translate, translate_items_append, hpre]
  rw [translate_items_cons_nonfunction e rest m hnf]

/-- Witness for C7 at the one-item module whose item is a reserved expression. -/
theorem top_level_must_be_function_witness :
    translate [Expression.Reserved] "m" = .error .topLevelNotFunction :=
  top_level_must_be_function [Expression.Reserved] "m" [] [] .Reserved
    ObjectModule.new rfl rfl rfl

/-- C8: a module with zero functions lowers successfully: the compilation unit stays
empty (no declared and no defined functions) and the object file is written under the
name module_name.o. -/
theorem empty_module_emission (module_name : String) :
    translate [] module_name =
      .ok { path := module_name ++ ".o", unit := ObjectModule.new } ∧
    ObjectModule.new.declaredFns = [] ∧ ObjectModule.new.definedFns = [] :=
  ⟨rfl, rfl, rfl⟩

/-- C9: the entry block is created with an empty parameter list and the source never
appends block parameters, so the positional read in the parameter-binding loop is out
of bounds for any non-empty parameter list; when the filtered machine-type list is
empty (every parameter unit-typed) the type-list read is out of bounds instead; hence
lowering any function with at least one declared parameter aborts with an error
rather than binding its parameters. -/
theorem entry_block_param_binding_aborts :
    ((FnBuilder.new.create_block).2).block_params (FnBuilder.new.create_block).1 =
      [] ∧
    (∀ (tys : List CLType) (blk : Nat) (name : String) (sty : T)
      (ps : List (String × T)) (idx : Nat) (b : FnBuilder) (c : Ctx),
      b.block_params blk = [] →
      ∃ e, bind_params tys blk ((name, sty) :: ps) idx b c = .error e) ∧
    (∀ (blk : Nat) (name : String) (sty : T) (ps : List (String × T)) (idx : Nat)
      (b : FnBuilder) (c : Ctx),
      bind_params [] blk ((name, sty) :: ps) idx b c =
        .error (.paramTyIndexOOB idx)) ∧
    (∀ (func : Func) (m : ObjectModule), func.params ≠ [] →
      ∃ e, translate_function func m = .error e) := by
  refine ⟨rfl, bind_params_no_blockparams, ?_, ?_⟩
  · intro blk name sty ps idx b c
    simp [bind_params]
  · intro func m hne
    obtain ⟨nm, ps, rt, bd⟩ := func
    simp only [Func.params] at hne
    cases hp : params_to_cranelift ps with
    | error e => exact ⟨e, by simp [translate_function, Func.params, hp]⟩
    | ok tys =>
      cases hr : type_to_cranelift rt with
      | error e =>
        exact ⟨e, by simp [translate_function, Func.params, Func.return_ty, hp, hr]⟩
      | ok mt =>
        cases ps with
        | nil => exact absurd rfl hne
        | cons p0 ps2 =>
          obtain ⟨pn, pt⟩ := p0
          obtain ⟨e, he⟩ := bind_params_no_blockparams tys
            (FnBuilder.new.create_block).1 pn pt ps2 0
            (((FnBuilder.new.create_block).2.switch_to_block
              (FnBuilder.new.create_block).1).seal_block
              (FnBuilder.new.create_block).1) Ctx.new rfl
          exact ⟨e, by
            simp [translate_function, Func.params, Func.return_ty, Func.name,
              hp, hr, he]⟩

/-- Witness for C9 at a function with one Int parameter. -/
theorem entry_block_param_binding_aborts_witness :
    ∃ e, translate_function
      (Func.mk "f" [("a", T.BuiltIn .Int)] T.Unit (.mk .nil))
      ObjectModule.new = .error e :=
  entry_block_param_binding_aborts.2.2.2
    (Func.mk "f" [("a", T.BuiltIn .Int)] T.Unit (.mk .nil)) ObjectModule.new
    (by simp [Func.params])

/-- C1 (recording the code bug): lowering add(a: Int, b: Int) -> Int with body
return a + b must, per the claim, bind a and b to the entry-block parameters at
positions 0 and 1; instead translate_function, which never appends block parameters
to the entry block it creates, aborts at the out-of-bounds positional read of the
empty entry-block parameter list. -/
theorem add_function_lowering_aborts :
    translate_function
      (Func.mk "add" [("a", T.BuiltIn .Int), ("b", T.BuiltIn .Int)] (T.BuiltIn .Int)
        (.mk (.cons (.Return (.BinaryOp .Plus (.Identifier "a") (.Identifier "b")))
          .nil)))
      ObjectModule.new = .error (.blockParamIndexOOB 0) := rfl

/-- C10: when the recomputed type of an assignment lowers to no machine type, the
unconditional unwrap in the assignment translation panics: lowering the assignment
produces the unwrap error instead of declaring a slot or a recoverable result. -/
theorem assignment_unit_type_panics (ident : String) (binding : Expression)
    (b : FnBuilder) (c : Ctx) (val : Nat) (b1 : FnBuilder) (c1 : Ctx)
    (hrhs : translate_expression binding b c = .ok (val, b1, c1))
    (hty : type_to_cranelift (type_of (fun _ => none) (.Assignment ident binding)) =
      .ok none) :
    translate_expression (.Assignment ident binding) b c = .error .unwrapNone := by
  simp only [translate_expression, hrhs, hty]

/-- Witness for C10 at the assignment x = { } whose right-hand side is a unit-typed
empty block. -/
theorem assignment_unit_type_panics_witness :
    translate_expression (.Assignment "x" (.Block (.mk .nil))) FnBuilder.new Ctx.new =
      .error .unwrapNone :=
  assignment_unit_type_panics "x" (.Block (.mk .nil)) FnBuilder.new Ctx.new 0
    ((FnBuilder.new.create_block).2.emit (Instr.iconst .I64 0)).2 Ctx.new rfl rfl

end Ctrl
